import Mathlib

/-!
Verification of the `synchrony` crate's core primitives (Flag, WakerSlot,
Shared, BiLock, and the blocking Mutex shims) against its specification.

The Rust code is shallowly embedded: each primitive's mutable cell becomes
an explicit state value, and each operation becomes a pure function from
state to result-and-state.  The single-context (`unsync`) flavor is the one
whose code is fully visible, and "atomic" operations of the thread-safe
flavor linearize to the same sequential semantics, so both are embedded by
the same functions.  Wakers are opaque task handles, modelled by a task id;
`Waker::will_wake` becomes id equality, and "invoking" a waker is recorded
in an explicit list of fired wakers rather than performed.
-/

namespace Synchrony

/-- A task-wakeup handle (`std::task::Waker`), identified by its eventual
wakeup target. -/
structure Waker where
  id : Nat
deriving DecidableEq, Repr

/-! ## Flag (src/flag.rs)

`Flag` wraps an `AtomicBool`; in the unsync flavor the cell is a plain
`Cell<bool>` and every operation is a sequential read-modify-write. -/

/-- The boolean cell inside `Flag`. -/
abbrev Flag := Bool

/-- `Flag::new(val)`. -/
def Flag.new (val : Bool) : Flag := val

/-- `Flag::get`: `self.0.load(Acquire)`. -/
def Flag.get (f : Flag) : Bool := f

/-- `Flag::swap(val)`: returns the previous value, installs `val`.
Result is `(previous, new cell)`. -/
def Flag.swap (f : Flag) (val : Bool) : Bool × Flag := (f, val)

/-- The `compare_exchange_weak` retry loop inside `Flag::flip`.
`expected` is the value `flip` last observed, `cell` the value the cell
holds when the compare-and-swap executes, and `interf` the values
interfering writers install before each subsequent attempt (empty in the
single-context flavor, where nothing can run between the read and the
compare-and-swap).  Returns `(returned value, final cell, number of
compare-and-swap attempts)`.  Each attempt compares `cell` with
`expected`: on success it installs `!expected` and `flip` returns it; on
failure the loop retries with the freshly observed value, against a cell
possibly rewritten by the next interfering write. -/
def Flag.flipLoop : Bool → Bool → List Bool → Bool × Bool × Nat
  | expected, cell, [] =>
    if cell = expected then
      (!expected, !expected, 1)
    else
      -- Retry with the freshly observed value: no interference remains, so
      -- the cell still holds that value and the next attempt succeeds.
      (!cell, !cell, 2)
  | expected, cell, w :: rest =>
    if cell = expected then
      (!expected, !expected, 1)
    else
      let r := Flag.flipLoop cell w rest
      (r.1, r.2.1, r.2.2 + 1)

/-- `Flag::flip` in the single-context flavor: read the current value, then
run the compare-and-swap loop with no interference.  Returns
`(new value returned, new cell)`. -/
def Flag.flip (f : Flag) : Bool × Flag :=
  let r := Flag.flipLoop (Flag.get f) f []
  (r.1, r.2.1)

/-- Number of compare-and-swap attempts `Flag::flip` performs in the
single-context flavor. -/
def Flag.flipCasCount (f : Flag) : Nat :=
  (Flag.flipLoop (Flag.get f) f []).2.2

/-- The values returned by `n` successive completed `flip()` calls starting
from a flag holding `v`. -/
def Flag.flipSeq : Bool → Nat → List Bool
  | _, 0 => []
  | v, n + 1 =>
    let r := Flag.flip v
    r.1 :: Flag.flipSeq r.2 n

/-! ## WakerSlot (src/waker_slot.rs, unsync flavor)

The slot is a `RefCell<Option<Waker>>`.  Operations that invoke a waker
return the list of wakers fired. -/

/-- The `unsync::WakerSlot` state: the optional stored waker. -/
abbrev WakerSlot := Option Waker

/-- `WakerSlot::new()`: empty. -/
def WakerSlot.new : WakerSlot := none

/-- `WakerSlot::register(waker)`: keeps the stored waker when it would
already wake the same task (`will_wake`), otherwise stores a clone of the
given waker. -/
def WakerSlot.register (s : WakerSlot) (w : Waker) : WakerSlot :=
  match s with
  | some x => if x = w then some x else some w
  | none => some w

/-- `WakerSlot::take()`: removes and returns the stored waker. -/
def WakerSlot.take (s : WakerSlot) : Option Waker × WakerSlot :=
  (s, none)

/-- `WakerSlot::wake()`: `if let Some(waker) = self.take() { waker.wake() }`.
Returns the new slot state and the wakers fired. -/
def WakerSlot.wake (s : WakerSlot) : WakerSlot × List Waker :=
  match (WakerSlot.take s).1 with
  | some w => ((WakerSlot.take s).2, [w])
  | none => ((WakerSlot.take s).2, [])

/-- An operation in a `register`/`wake`/`take` interleaving on one slot. -/
inductive SlotOp where
  | register (w : Waker)
  | wake
  | take
deriving DecidableEq, Repr

/-- Run a sequence of slot operations, collecting every waker fired. -/
def WakerSlot.run (s : WakerSlot) : List SlotOp → WakerSlot × List Waker
  | [] => (s, [])
  | SlotOp.register w :: rest => WakerSlot.run (WakerSlot.register s w) rest
  | SlotOp.wake :: rest =>
    let p := WakerSlot.wake s
    let r := WakerSlot.run p.1 rest
    (r.1, p.2 ++ r.2)
  | SlotOp.take :: rest => WakerSlot.run (WakerSlot.take s).2 rest

/-- How many times waker `w` is registered in a sequence of operations. -/
def registerCount (w : Waker) : List SlotOp → Nat
  | [] => 0
  | SlotOp.register x :: rest =>
    (if x = w then 1 else 0) + registerCount w rest
  | _ :: rest => registerCount w rest

/-! ## BiLock (src/bilock.rs)

`Inner<T>` holds the lock flag, the single waiter slot and the protected
payload.  The state of one `BiLock` pair is an `Inner` together with a
ghost count of the `BiLockGuard` values currently alive (a guard is
created by a `Ready` poll and consumed by its `drop`). -/

/-- `Inner<T>`: `locked: Flag, waiter: WakerSlot, data: UnsafeCell<T>`. -/
structure Inner (T : Type) where
  locked : Flag
  waiter : WakerSlot
  data : T

/-- Configuration of one `BiLock` pair: the shared `Inner` plus the number
of outstanding `BiLockGuard` values (ghost state tracking guard lifetimes). -/
structure BiLockState (T : Type) where
  inner : Inner T
  guards : Nat

/-- The state `BiLock::new(data)` sets up: unlocked, empty waiter slot,
no guard. -/
def BiLockState.init (data : T) : BiLockState T :=
  { inner := { locked := Flag.new false, waiter := WakerSlot.new, data := data }
    guards := 0 }

/-- Result of `Future::poll`. -/
inductive Poll where
  | pending
  | ready
deriving DecidableEq, Repr

/-- `BiLockAcquire::poll(cx)`: performs `locked.swap(true)`.  If the
previous value was `true` the waker of `cx` is registered in `waiter` and
the poll returns `Pending`; otherwise the poll returns `Ready` with a new
guard. -/
def BiLockAcquire.poll (s : BiLockState T) (w : Waker) : Poll × BiLockState T :=
  let sw := Flag.swap s.inner.locked true
  if sw.1 then
    (Poll.pending,
     { s with inner := { s.inner with
         locked := sw.2, waiter := WakerSlot.register s.inner.waiter w } })
  else
    (Poll.ready,
     { inner := { s.inner with locked := sw.2 }, guards := s.guards + 1 })

/-- The first statement of `Drop for BiLockGuard`:
`self.inner.locked.swap(false)`. -/
def BiLockGuard.dropClear (s : BiLockState T) : BiLockState T :=
  { s with inner := { s.inner with locked := (Flag.swap s.inner.locked false).2 } }

/-- `Drop for BiLockGuard`: `locked.swap(false)` followed by
`waiter.wake()`.  Consumes one guard; returns the new state and the wakers
fired. -/
def BiLockGuard.drop (s : BiLockState T) : BiLockState T × List Waker :=
  let s1 := BiLockGuard.dropClear s
  let wk := WakerSlot.wake s1.inner.waiter
  ({ inner := { s1.inner with waiter := wk.1 }, guards := s.guards - 1 }, wk.2)

/-- Reachability under the poll/guard-drop step relation, starting from the
state `BiLock::new(data)` creates.  A drop step is enabled only while a
guard value exists. -/
inductive Reachable (data : T) : BiLockState T → Prop where
  | init : Reachable data (BiLockState.init data)
  | poll (w : Waker) {s : BiLockState T} :
      Reachable data s → Reachable data (BiLockAcquire.poll s w).2
  | dropGuard {s : BiLockState T} :
      Reachable data s → 0 < s.guards → Reachable data (BiLockGuard.drop s).1

/-! ## Shared (referenced from src/lib.rs as `mod shared`)

`src/shared.rs` itself is not among the provided source files; the cell is
modelled from the spec.  Handles are allocation ids drawn against a world
recording each allocation's live-handle count and payload. -/

/-- A `Shared<T>` handle: identity of the allocation it references. -/
structure SharedHandle where
  allocId : Nat
deriving DecidableEq, Repr

/-- Modelled from the spec: the heap of `Shared` allocations (src/shared.rs
is missing from the sources; spec §4.3 describes `new`, `clone`, `ptr_eq`,
`try_unwrap` and drop over refcounted allocations).  `count i` is the
live-handle count of allocation `i`, `value i` its payload, and `next` the
next fresh allocation id. -/
structure SharedState (T : Type) where
  count : Nat → Nat
  value : Nat → T
  next : Nat

/-- Modelled from the spec: `Shared::new(value)` allocates with count 1. -/
def Shared.new (st : SharedState T) (v : T) : SharedHandle × SharedState T :=
  (⟨st.next⟩,
   { count := fun i => if i = st.next then 1 else st.count i
     value := fun i => if i = st.next then v else st.value i
     next := st.next + 1 })

/-- Modelled from the spec: `Shared::clone` increments the count and
returns an aliasing handle. -/
def Shared.clone (st : SharedState T) (h : SharedHandle) :
    SharedHandle × SharedState T :=
  (⟨h.allocId⟩,
   { st with count := fun i =>
       if i = h.allocId then st.count i + 1 else st.count i })

/-- Modelled from the spec: `Shared::ptr_eq(a, b)` is identity of the
underlying allocation. -/
def Shared.ptrEq (a b : SharedHandle) : Bool :=
  a.allocId == b.allocId

/-- Modelled from the spec: dropping a `Shared` handle decrements its
allocation's count. -/
def Shared.dropHandle (st : SharedState T) (h : SharedHandle) : SharedState T :=
  { st with count := fun i =>
      if i = h.allocId then st.count i - 1 else st.count i }

/-- Modelled from the spec: `Shared::try_unwrap` reclaims the payload iff
exactly one live handle remains, otherwise returns the handle unchanged. -/
def Shared.tryUnwrap (st : SharedState T) (h : SharedHandle) :
    (T ⊕ SharedHandle) × SharedState T :=
  if st.count h.allocId = 1 then
    (Sum.inl (st.value h.allocId), Shared.dropHandle st h)
  else
    (Sum.inr h, st)

/-- `BiLock::new(data)`: allocate one `Inner` in a `Shared` cell and return
two handles aliasing it (`(Self(inner.clone()), Self(inner))`). -/
def BiLock.new (st : SharedState (Inner T)) (data : T) :
    (SharedHandle × SharedHandle) × SharedState (Inner T) :=
  let p := Shared.new st
    { data := data, waiter := WakerSlot.new, locked := Flag.new false }
  let c := Shared.clone p.2 p.1
  ((c.1, p.1), c.2)

/-- `BiLock::try_join(self, other)`: when the handles alias the same
allocation, drop `other`, then `try_unwrap` on `self`, expecting success
(`expect("BiLock is still shared")` panics otherwise, modelled as
`Except.error`); unrelated handles yield `Ok none` and both handles are
dropped at end of scope. -/
def BiLock.tryJoin (st : SharedState (Inner T)) (a b : SharedHandle) :
    Except String (Option T) × SharedState (Inner T) :=
  if Shared.ptrEq a b then
    let st1 := Shared.dropHandle st b
    match Shared.tryUnwrap st1 a with
    | (Sum.inl inner, st2) => (Except.ok (some inner.data), st2)
    | (Sum.inr _, st2) => (Except.error "BiLock is still shared", st2)
  else
    (Except.ok none, Shared.dropHandle (Shared.dropHandle st a) b)

/-- `BiLock::join(self, other)`: like `try_join` but panics on unrelated
handles. -/
def BiLock.join (st : SharedState (Inner T)) (a b : SharedHandle) :
    Except String T × SharedState (Inner T) :=
  match BiLock.tryJoin st a b with
  | (Except.ok (some v), st1) => (Except.ok v, st1)
  | (Except.ok none, st1) =>
    (Except.error "Unrelated `BiLock` passed to `BiLock::join`.", st1)
  | (Except.error e, st1) => (Except.error e, st1)

/-! ## Blocking Mutex (src/mutex_blocking.rs)

The sync flavor wraps `std::sync::Mutex`; the unsync flavor wraps
`std::cell::RefCell`.  Their runtime lock state is made explicit. -/

/-- State of `sync::Mutex<T>`: whether the platform mutex is held, whether
it is poisoned (a thread panicked while holding it), and the data. -/
structure sync.Mutex (T : Type) where
  locked : Bool
  poisoned : Bool
  data : T

/-- `sync::Mutex::lock`: `std::sync::Mutex::lock` blocks the calling
thread while the lock is held (`none`: the caller stays blocked and the
call is retried once the holder releases); once acquired, `.unwrap()`
panics iff the mutex is poisoned. -/
def sync.Mutex.lock (m : sync.Mutex T) :
    Option (Except String (sync.Mutex T)) :=
  if m.locked then none
  else if m.poisoned then some (Except.error "PoisonError")
  else some (Except.ok { m with locked := true })

/-- `sync::MutexGuard` deref: read access to the wrapped value. -/
def sync.MutexGuard.get (m : sync.Mutex T) : T :=
  m.data

/-- `sync::MutexGuard` deref_mut: write access to the wrapped value. -/
def sync.MutexGuard.set (m : sync.Mutex T) (v : T) : sync.Mutex T :=
  { m with data := v }

/-- State of `unsync::Mutex<T>`: whether the `RefCell` is mutably
borrowed, and the data. -/
structure unsync.Mutex (T : Type) where
  borrowed : Bool
  data : T

/-- `unsync::Mutex::lock`: `RefCell::borrow_mut`, which panics if the
value is currently borrowed (it does not block). -/
def unsync.Mutex.lock (m : unsync.Mutex T) :
    Except String (unsync.Mutex T) :=
  if m.borrowed then Except.error "already mutably borrowed"
  else Except.ok { m with borrowed := true }

/-- `unsync::MutexGuard` deref: read access to the wrapped value. -/
def unsync.MutexGuard.get (m : unsync.Mutex T) : T :=
  m.data

/-- `unsync::MutexGuard` deref_mut: write access to the wrapped value. -/
def unsync.MutexGuard.set (m : unsync.Mutex T) (v : T) : unsync.Mutex T :=
  { m with data := v }

/-! ## Theorems -/

theorem Flag.flip_eq (f : Flag) : Flag.flip f = (!f, !f) := by
  cases f <;> rfl

theorem Flag.flipSeq_succ (v : Bool) (n : Nat) :
    Flag.flipSeq v (n + 1) = (!v) :: Flag.flipSeq (!v) n := by
  simp [Flag.flipSeq, Flag.flip_eq]

theorem Flag.flipSeq_get (n : Nat) : ∀ (v : Bool) (i : Nat), i < n →
    (Flag.flipSeq v n).get? i = some (if i % 2 = 0 then !v else v) := by
  induction n with
  | zero => intro v i hi; omega
  | succ n ih =>
    intro v i hi
    rw [Flag.flipSeq_succ]
    match i with
    | 0 => simp
    | j + 1 =>
      rw [List.get?_cons_succ, ih (!v) j (by omega)]
      rcases Nat.mod_two_eq_zero_or_one j with h | h
      · have h2 : (j + 1) % 2 = 1 := by omega
        simp [h, h2]
      · have h2 : (j + 1) % 2 = 0 := by omega
        simp [h, h2]

/-- C2: `BiLockAcquire::poll` performs `locked.swap(true)`.  When the swap
returns `false`, the poll completes at once with a guard and the flag is
now `true`; when it returns `true`, the poll registers the caller's waker
in the waiter slot and returns `Pending`, changing nothing else of the
state (in particular it fires no waker, so nothing re-polls the
acquisition on its own). -/
theorem poll_swap_spec (s : BiLockState T) (w : Waker) :
    (s.inner.locked = false →
      BiLockAcquire.poll s w =
        (Poll.ready,
         { inner := { s.inner with locked := true }, guards := s.guards + 1 })) ∧
    (s.inner.locked = true →
      BiLockAcquire.poll s w =
        (Poll.pending,
         { s with inner := { s.inner with
             locked := true,
             waiter := WakerSlot.register s.inner.waiter w } })) := by
  constructor
  · intro h
    simp [BiLockAcquire.poll, Flag.swap, h]
  · intro h
    simp [BiLockAcquire.poll, Flag.swap, h]

theorem poll_swap_spec_witness :
    (BiLockState.init (0 : Nat)).inner.locked = false ∧
      BiLockAcquire.poll (BiLockState.init (0 : Nat)) ⟨0⟩ =
        (Poll.ready,
         { inner := { (BiLockState.init (0 : Nat)).inner with locked := true },
           guards := (BiLockState.init (0 : Nat)).guards + 1 }) :=
  ⟨rfl, (poll_swap_spec (BiLockState.init (0 : Nat)) ⟨0⟩).1 rfl⟩

/-- C3: dropping a guard first clears the lock flag (`locked.swap(false)`)
and only then wakes the waiter slot: the release factors through the
intermediate state `dropClear`, whose flag is already `false` when the
wake fires; consequently the final state is unlocked and a continuation
woken by this release that re-polls immediately finds the lock free and
completes. -/
theorem drop_clear_before_wake (s : BiLockState T) (w : Waker)
    (_hw : w ∈ (BiLockGuard.drop s).2) :
    (BiLockGuard.dropClear s).inner.locked = false ∧
    BiLockGuard.drop s =
      ({ inner := { (BiLockGuard.dropClear s).inner with
           waiter := (WakerSlot.wake (BiLockGuard.dropClear s).inner.waiter).1 },
         guards := s.guards - 1 },
       (WakerSlot.wake (BiLockGuard.dropClear s).inner.waiter).2) ∧
    ((BiLockGuard.drop s).1).inner.locked = false ∧
    (BiLockAcquire.poll (BiLockGuard.drop s).1 w).1 = Poll.ready := by
  refine ⟨rfl, rfl, rfl, ?_⟩
  simp [BiLockAcquire.poll, Flag.swap, BiLockGuard.drop, BiLockGuard.dropClear]

theorem drop_clear_before_wake_witness :
    (⟨0⟩ : Waker) ∈
      (BiLockGuard.drop
        (⟨⟨true, some ⟨0⟩, (5 : Nat)⟩, 1⟩ : BiLockState Nat)).2 ∧
    (BiLockAcquire.poll
      (BiLockGuard.drop
        (⟨⟨true, some ⟨0⟩, (5 : Nat)⟩, 1⟩ : BiLockState Nat)).1 ⟨0⟩).1
      = Poll.ready := by
  have h := drop_clear_before_wake
    (⟨⟨true, some ⟨0⟩, (5 : Nat)⟩, 1⟩ : BiLockState Nat) ⟨0⟩ (by decide)
  exact ⟨by decide, h.2.2.2⟩

/-- C10: the release step only touches the lock flag (cleared) and the
waiter slot (drained, its occupant fired); the protected payload is
unchanged. -/
theorem drop_frame (s : BiLockState T) :
    (BiLockGuard.drop s).1 =
      { inner := { locked := false, waiter := none, data := s.inner.data },
        guards := s.guards - 1 } ∧
    ((BiLockGuard.drop s).1).inner.data = s.inner.data ∧
    (BiLockGuard.drop s).2 = Option.toList s.inner.waiter := by
  refine ⟨?_, ?_, ?_⟩ <;>
    cases h : s.inner.waiter <;>
      simp [BiLockGuard.drop, BiLockGuard.dropClear, Flag.swap,
        WakerSlot.wake, WakerSlot.take, h]

/-- C6: starting from a flag holding `v0`, the values returned by `n`
successive completed `flip()` calls strictly alternate beginning with
`!v0` (the value at position `i` is `!v0` for even `i` and `v0` for odd
`i`), and each `flip` returns exactly the value it installed in the
flag. -/
theorem flip_alternates (v0 : Bool) (n : Nat) :
    (∀ i, i < n →
      (Flag.flipSeq v0 n).get? i = some (if i % 2 = 0 then !v0 else v0)) ∧
    (∀ f : Flag, (Flag.flip f).1 = (Flag.flip f).2) := by
  constructor
  · intro i hi
    exact Flag.flipSeq_get n v0 i hi
  · intro f
    rw [Flag.flip_eq]

theorem flip_alternates_witness :
    (Flag.flipSeq false 3).get? 1 = some false := by
  have h := (flip_alternates false 3).1 1 (by decide)
  simpa using h

/-- C7: the compare-and-swap loop of `Flag::flip` terminates, performing
at most two attempts more than the number of interfering writes; in the
single-context flavor (no interference between the read and the
compare-and-swap) it performs exactly one compare-and-swap. -/
theorem flip_cas_terminates :
    (∀ f : Flag, Flag.flipCasCount f = 1) ∧
    (∀ (e c : Bool) (interf : List Bool),
      (Flag.flipLoop e c interf).2.2 ≤ interf.length + 2) := by
  constructor
  · intro f
    cases f <;> rfl
  · intro e c interf
    induction interf generalizing e c with
    | nil =>
      by_cases h : c = e <;> simp [Flag.flipLoop, h]
    | cons w rest ih =>
      by_cases h : c = e
      · simp [Flag.flipLoop, h]
      · have := ih c w
        simp only [Flag.flipLoop, if_neg h, List.length_cons]
        omega

/-- C1: in every state reachable under the poll/guard-drop step relation,
at most one guard exists for the `Inner`, and the lock flag is `true`
exactly when a guard is outstanding. -/
theorem bilock_invariant (data : T) (s : BiLockState T)
    (h : Reachable data s) :
    s.guards ≤ 1 ∧ (s.inner.locked = true ↔ s.guards = 1) := by
  induction h with
  | init =>
    simp [BiLockState.init, Flag.new, WakerSlot.new]
  | poll w hr ih =>
    rename_i s
    rcases ih with ⟨hle, hiff⟩
    cases hl : s.inner.locked with
    | true =>
      have hg : s.guards = 1 := hiff.mp hl
      rw [((poll_swap_spec s w).2 hl)]
      simp [hg]
    | false =>
      have hg : s.guards = 0 := by
        rcases Nat.lt_or_ge s.guards 1 with h1 | h1
        · omega
        · have := hiff.mpr (by omega)
          rw [hl] at this
          exact absurd this (by simp)
      rw [((poll_swap_spec s w).1 hl)]
      simp [hg]
  | dropGuard hr hpos ih =>
    rename_i s
    rcases ih with ⟨hle, hiff⟩
    have hd := (drop_frame s).1
    rw [hd]
    simp
    omega

theorem bilock_invariant_witness :
    (BiLockState.init (0 : Nat)).guards ≤ 1 ∧
      ((BiLockState.init (0 : Nat)).inner.locked = true ↔
        (BiLockState.init (0 : Nat)).guards = 1) :=
  bilock_invariant 0 (BiLockState.init 0) Reachable.init

theorem WakerSlot.run_count_bound (w : Waker) :
    ∀ (ops : List SlotOp) (s : WakerSlot),
      ((WakerSlot.run s ops).2).count w
          + (if (WakerSlot.run s ops).1 = some w then 1 else 0)
        ≤ registerCount w ops + (if s = some w then 1 else 0) := by
  intro ops
  induction ops with
  | nil =>
    intro s
    simp [WakerSlot.run]
  | cons op rest ih =>
    intro s
    cases op with
    | register x =>
      have h1 := ih (WakerSlot.register s x)
      have h2 : (if WakerSlot.register s x = some w then 1 else 0)
          ≤ (if x = w then 1 else 0) + (if s = some w then 1 else 0) := by
        cases s with
        | none => simp [WakerSlot.register, Option.some.injEq]
        | some y =>
          by_cases hyx : y = x
          · subst hyx
            simp only [WakerSlot.register, if_pos rfl]
            exact Nat.le_add_left _ _
          · simp only [WakerSlot.register, if_neg hyx, Option.some.injEq]
            exact Nat.le_add_right _ _
      simp only [WakerSlot.run, registerCount]
      omega
    | wake =>
      cases s with
      | none =>
        have h1 := ih (none : WakerSlot)
        simp only [WakerSlot.run, WakerSlot.wake, WakerSlot.take,
          registerCount] at h1 ⊢
        simpa using h1
      | some y =>
        have h1 := ih (none : WakerSlot)
        simp only [WakerSlot.run, WakerSlot.wake, WakerSlot.take,
          registerCount, List.count_append, List.count_cons,
          List.count_nil] at h1 ⊢
        by_cases hyw : y = w <;> simp [hyw] at h1 ⊢ <;> omega
    | take =>
      have h1 := ih (none : WakerSlot)
      simp only [WakerSlot.run, WakerSlot.take, registerCount] at h1 ⊢
      have h0 : (if (none : WakerSlot) = some w then 1 else 0) = 0 := by
        simp [WakerSlot]
      rw [h0] at h1
      omega

/-- C8: `WakerSlot::wake` equals `take` followed by firing the returned
waker when present; `wake` on an empty slot changes nothing and fires
nothing; the slot is empty immediately after `wake` or `take`; and over
every `register`/`wake`/`take` interleaving starting from an empty slot,
a waker is fired at most as many times as it was registered (each stored
continuation fires at most once). -/
theorem wakerSlot_wake_correct :
    (∀ s : WakerSlot,
      WakerSlot.wake s = ((WakerSlot.take s).2, ((WakerSlot.take s).1).toList)) ∧
    (WakerSlot.wake WakerSlot.new = (WakerSlot.new, [])) ∧
    (∀ s : WakerSlot,
      (WakerSlot.wake s).1 = none ∧ (WakerSlot.take s).2 = none) ∧
    (∀ (ops : List SlotOp) (w : Waker),
      ((WakerSlot.run WakerSlot.new ops).2).count w ≤ registerCount w ops) := by
  refine ⟨?_, rfl, ?_, ?_⟩
  · intro s
    cases s <;> rfl
  · intro s
    cases s <;> exact ⟨rfl, rfl⟩
  · intro ops w
    have h := WakerSlot.run_count_bound w ops WakerSlot.new
    have hn : (WakerSlot.new : WakerSlot) = some w ↔ False := by
      simp [WakerSlot.new]
    rcases hh : (WakerSlot.run WakerSlot.new ops).1 with _ | y <;>
      simp [hh, hn] at h <;> omega

/-- C4: on a freshly created pair with no additional clones, `try_join`
succeeds and returns the original payload; moreover `try_join` returns
`Some` only when the two handles reference the same allocation, and when
they do (with exactly the two handles alive) it returns the stored
payload. -/
theorem tryJoin_correct (st : SharedState (Inner T)) (v : T) :
    (BiLock.tryJoin (BiLock.new st v).2 (BiLock.new st v).1.1
        (BiLock.new st v).1.2).1 = Except.ok (some v) ∧
    (∀ (st2 : SharedState (Inner T)) (a b : SharedHandle) (t : T),
      (BiLock.tryJoin st2 a b).1 = Except.ok (some t) →
      Shared.ptrEq a b = true) ∧
    (∀ (st2 : SharedState (Inner T)) (a b : SharedHandle),
      Shared.ptrEq a b = true → st2.count a.allocId = 2 →
      (BiLock.tryJoin st2 a b).1 =
        Except.ok (some (st2.value a.allocId).data)) := by
  refine ⟨?_, ?_, ?_⟩
  · simp [BiLock.new, Shared.new, Shared.clone, Shared.ptrEq,
      Shared.dropHandle, Shared.tryUnwrap, BiLock.tryJoin]
  · intro st2 a b t h
    by_cases hp : Shared.ptrEq a b = true
    · exact hp
    · simp [BiLock.tryJoin, hp] at h
  · intro st2 a b hp hc
    have hab : b.allocId = a.allocId := by
      have h := hp
      simp only [Shared.ptrEq, beq_iff_eq] at h
      omega
    simp [BiLock.tryJoin, hp, Shared.dropHandle, Shared.tryUnwrap, hab, hc]

theorem tryJoin_correct_witness :
    (BiLock.tryJoin
        (⟨fun _ => 2, fun _ => ⟨false, none, (7 : Nat)⟩, 1⟩ :
          SharedState (Inner Nat))
        ⟨0⟩ ⟨0⟩).1 = Except.ok (some 7) := by
  have h := (tryJoin_correct
    (⟨fun _ => 0, fun _ => ⟨false, none, (0 : Nat)⟩, 0⟩ :
      SharedState (Inner Nat)) 0).2.2
    (⟨fun _ => 2, fun _ => ⟨false, none, (7 : Nat)⟩, 1⟩ :
      SharedState (Inner Nat))
    ⟨0⟩ ⟨0⟩ rfl rfl
  exact h

/-- C5: across handles of two independently constructed pairs, `try_join`
returns `None` without panicking and `join` panics with the
unrelated-handles message; `join` on the two handles of one pair returns
that pair's payload. -/
theorem join_unrelated (st : SharedState (Inner T)) (v1 v2 : T) :
    (BiLock.tryJoin (BiLock.new (BiLock.new st v1).2 v2).2
        (BiLock.new st v1).1.1 (BiLock.new (BiLock.new st v1).2 v2).1.1).1
      = Except.ok none ∧
    (BiLock.join (BiLock.new (BiLock.new st v1).2 v2).2
        (BiLock.new st v1).1.1 (BiLock.new (BiLock.new st v1).2 v2).1.1).1
      = Except.error "Unrelated `BiLock` passed to `BiLock::join`." ∧
    (BiLock.join (BiLock.new (BiLock.new st v1).2 v2).2
        (BiLock.new st v1).1.1 (BiLock.new st v1).1.2).1
      = Except.ok v1 := by
  have hne : st.next ≠ st.next + 1 := by omega
  refine ⟨?_, ?_, ?_⟩
  · simp [BiLock.new, Shared.new, Shared.clone, Shared.ptrEq,
      Shared.dropHandle, Shared.tryUnwrap, BiLock.tryJoin, hne]
  · simp [BiLock.new, Shared.new, Shared.clone, Shared.ptrEq,
      Shared.dropHandle, Shared.tryUnwrap, BiLock.tryJoin, BiLock.join, hne]
  · simp [BiLock.new, Shared.new, Shared.clone, Shared.ptrEq,
      Shared.dropHandle, Shared.tryUnwrap, BiLock.tryJoin, BiLock.join, hne]

/-- C9, counterexample: the unsync flavor's acquire does not block until
the lock is available — `RefCell::borrow_mut` panics when the lock is
merely held, refuting "acquire never fails or faults when the lock is
merely held". -/
theorem unsync_lock_held_faults :
    unsync.Mutex.lock (⟨true, (0 : Nat)⟩ : unsync.Mutex Nat) =
      Except.error "already mutably borrowed" := rfl

/-- C9, amended: the sync flavor's acquire blocks the calling thread while
the lock is held (no fault), and once available on an unpoisoned mutex
returns a guard with transparent read/write access to the wrapped value;
the unsync flavor's acquire does not block — it panics when the lock is
currently held, and otherwise returns such a guard. -/
theorem mutex_lock_correct (m : sync.Mutex T) (mu : unsync.Mutex T) :
    (m.locked = true → sync.Mutex.lock m = none) ∧
    (m.locked = false → m.poisoned = false →
      sync.Mutex.lock m = some (Except.ok { m with locked := true }) ∧
      sync.MutexGuard.get { m with locked := true } = m.data ∧
      ∀ v, sync.MutexGuard.set { m with locked := true } v =
        { m with locked := true, data := v }) ∧
    (mu.borrowed = true →
      unsync.Mutex.lock mu = Except.error "already mutably borrowed") ∧
    (mu.borrowed = false →
      unsync.Mutex.lock mu = Except.ok { mu with borrowed := true } ∧
      unsync.MutexGuard.get { mu with borrowed := true } = mu.data ∧
      ∀ v, unsync.MutexGuard.set { mu with borrowed := true } v =
        { mu with borrowed := true, data := v }) := by
  refine ⟨?_, ?_, ?_, ?_⟩
  · intro h
    simp [sync.Mutex.lock, h]
  · intro h hp
    exact ⟨by simp [sync.Mutex.lock, h, hp], rfl, fun v => rfl⟩
  · intro h
    simp [unsync.Mutex.lock, h]
  · intro h
    exact ⟨by simp [unsync.Mutex.lock, h], rfl, fun v => rfl⟩

theorem mutex_lock_correct_witness :
    sync.Mutex.lock (⟨false, false, (3 : Nat)⟩ : sync.Mutex Nat) =
      some (Except.ok ⟨true, false, 3⟩) ∧
    unsync.Mutex.lock (⟨true, (3 : Nat)⟩ : unsync.Mutex Nat) =
      Except.error "already mutably borrowed" := by
  have h := mutex_lock_correct (⟨false, false, (3 : Nat)⟩ : sync.Mutex Nat)
    (⟨true, (3 : Nat)⟩ : unsync.Mutex Nat)
  exact ⟨(h.2.1 rfl rfl).1, h.2.2.1 rfl⟩

end Synchrony
